import Mathlib

/-!
Shallow embedding of the animation-timeline and statistics core of the
stock-mystery-video-generator repository (src/main.py and the
src/stock_year_review.py variant).  Python floats are modelled as exact
rationals; `int(...)` truncation toward zero is modelled by `pyint`.
-/

/-- Fixed frame rate, src/main.py line 22 (`FPS = 30`). -/
def FPS : ℕ := 30

/-- Python `int(q)` on a float: truncation toward zero. -/
def pyint (q : ℚ) : ℤ :=
  if 0 ≤ q then ⌊q⌋ else -⌊-q⌋

/-- `int()` truncation followed by use as a non-negative array index. -/
def pyintNat (q : ℚ) : ℕ :=
  (pyint q).toNat

/-- `np.linspace(0, N-1, f)` over exact rationals: `f` evenly spaced samples
from `0` to `N-1`, the last one forced to the stop value exactly (numpy sets
the endpoint explicitly).  `f = 1` yields `[start] = [0]`, `f = 0` is empty. -/
def linspaceQ (N f : ℕ) : List ℚ :=
  (List.range f).map (fun i =>
    if f ≤ 1 then 0
    else if i = f - 1 then (N : ℚ) - 1
    else (i : ℚ) * ((N : ℚ) - 1) / ((f : ℚ) - 1))

/-- `idx_main = np.linspace(0, len(resampled_data) - 1, frames_main, dtype=int)`,
src/main.py line 239: linspace values truncated to integer indices. -/
def idx_main (N f : ℕ) : List ℕ :=
  (linspaceQ N f).map pyintNat

/-- `all_indices = np.concatenate([np.zeros(frames_start), idx_main,
np.full(frames_end, len(resampled_data) - 1)])`, src/main.py lines 240-244. -/
def all_indices (N fs fm fe : ℕ) : List ℕ :=
  List.replicate fs 0 ++ idx_main N fm ++ List.replicate fe (N - 1)

/-- The draw segment as the spec's words describe it: `frames_draw` indices
evenly spaced across `[0, N-1]` by linear spacing with integer truncation
(not rounding) at each sample, i.e. sample `i` is `⌊i·(N-1)/(f-1)⌋`.
(With a single sample the only index is `0`, matching linspace's start.) -/
def drawIndicesSpec (N f : ℕ) : List ℕ :=
  (List.range f).map (fun i => if f ≤ 1 then 0 else i * (N - 1) / (f - 1))

/-- The full timeline as the spec's words describe it: `frames_start_idle`
copies of `0`, then the evenly spaced draw indices, then `frames_end_idle`
copies of `N-1`. -/
def timelineSpec (N fs fm fe : ℕ) : List ℕ :=
  List.replicate fs 0 ++ drawIndicesSpec N fm ++ List.replicate fe (N - 1)

/-- `total_frames = frames_start + frames_main + frames_end`,
src/main.py line 237, with the frame counts given directly. -/
def total_frames (fs fm fe : ℕ) : ℕ :=
  fs + fm + fe

/-- A frame count from a duration in seconds:
`int(duration_sec * FPS)`, src/main.py lines 234-236. -/
def framesFromSec (sec : ℚ) : ℤ :=
  pyint (sec * FPS)

/-- `total_frames` as computed from the three durations,
src/main.py lines 234-237. -/
def total_frames_of_secs (duration_sec start_idle_sec end_idle_sec : ℚ) : ℤ :=
  framesFromSec start_idle_sec + framesFromSec duration_sec + framesFromSec end_idle_sec

/-- Length of the leading run of the value `a` at the front of a list. -/
def countLead (a : ℕ) : List ℕ → ℕ
  | [] => 0
  | x :: xs => if x = a then countLead a xs + 1 else 0

/-- The first run of equal values of a list: its value and its length
(`(0, 0)` for the empty list). -/
def firstRun : List ℕ → ℕ × ℕ
  | [] => (0, 0)
  | a :: l => (a, countLead a (a :: l))

/-- The last run of equal values of a list: its value and its length. -/
def lastRun (l : List ℕ) : ℕ × ℕ :=
  firstRun l.reverse

-- ── Currency formatting, src/main.py lines 35-40 ──

/-- Round half to even to an integer, the rounding used by Python fixed-point
`format` (e.g. `f-strings` with `:.0f` / `:.1f`). -/
def rhe (q : ℚ) : ℤ :=
  if q - ⌊q⌋ < 1/2 then ⌊q⌋
  else if 1/2 < q - ⌊q⌋ then ⌊q⌋ + 1
  else if ⌊q⌋ % 2 = 0 then ⌊q⌋ else ⌊q⌋ + 1

/-- Python `f"{q:.1f}"` for non-negative `q`: one decimal, round half to even. -/
def fmt1f (q : ℚ) : String :=
  toString ((rhe (q * 10)).toNat / 10) ++ "." ++ toString ((rhe (q * 10)).toNat % 10)

/-- Python `f"{q:.1f}"` for arbitrary sign. -/
def fmt1fQ (q : ℚ) : String :=
  if q < 0 then "-" ++ fmt1f (-q) else fmt1f q

/-- Linear interpolation of a (day, price) series at day `d`: constant before
the first knot and after the last, linear by elapsed-time fraction between
bracketing knots.  Models `data['Price'].resample('D').interpolate('linear')`
evaluated at one target day (src/main.py line 61). -/
def interpAt : List (ℕ × ℚ) → ℕ → ℚ
  | [], _ => 0
  | [(_, p)], _ => p
  | (t1, p1) :: (t2, p2) :: rest, d =>
    if d ≤ t1 then p1
    else if d ≤ t2 then p1 + (p2 - p1) * (((d : ℚ) - t1) / ((t2 : ℚ) - t1))
    else interpAt ((t2, p2) :: rest) d

/-- Day of the first point of a series (timestamps modelled as day numbers). -/
def firstDay (pts : List (ℕ × ℚ)) : ℕ :=
  ((pts.head?).getD (0, 0)).1

/-- Day of the last point of a series. -/
def lastDay (pts : List (ℕ × ℚ)) : ℕ :=
  ((pts.getLast?).getD (0, 0)).1

/-- `resampled_data = data['Price'].resample('D').interpolate(method='linear')`,
src/main.py line 61: one entry per calendar day from the first to the last
input day inclusive, prices linearly interpolated. -/
def resampleDaily (pts : List (ℕ × ℚ)) : List (ℕ × ℚ) :=
  if pts.isEmpty then []
  else (List.range (lastDay pts - firstDay pts + 1)).map
    (fun i => (firstDay pts + i, interpAt pts (firstDay pts + i)))

/-- `start_p = float(resampled_data.iloc[0])`, src/main.py line 62. -/
def start_price (ds : List (ℕ × ℚ)) : ℚ :=
  ((ds.head?).getD (0, 0)).2

/-- `end_p = float(resampled_data.iloc[-1])`, src/main.py line 63. -/
def end_price (ds : List (ℕ × ℚ)) : ℚ :=
  ((ds.getLast?).getD (0, 0)).2

/-- `pct_change = ((end_p - start_p) / start_p) * 100 if start_p != 0 else 0`,
src/main.py line 68. -/
def pct_change (start_p end_p : ℚ) : ℚ :=
  if start_p ≠ 0 then ((end_p - start_p) / start_p) * 100 else 0

/-- `pct_change = ((end_p - start_p) / start_p) * 100`,
src/stock_year_review.py line 77: no zero guard, so a zero start price
raises Python's `ZeroDivisionError` (modelled as `Except.error`). -/
def pct_change_syr (start_p end_p : ℚ) : Except String ℚ :=
  if start_p = 0 then Except.error "ZeroDivisionError"
  else Except.ok (((end_p - start_p) / start_p) * 100)

-- ── End-reveal text ──

/-- `sign = '+' if pct_change >= 0 else ''; pct_str = f"{sign}{pct_change:.1f}%"`,
src/stock_year_review.py lines 133-134 (identically src/main.py lines 178-179). -/
def pct_str (pct_change : ℚ) : String :=
  (if 0 ≤ pct_change then "+" else "") ++ fmt1fQ pct_change ++ "%"

/-- The reveal text shown during the end-idle phase in src/main.py:
lines 163-189 create `final_text` (quiz mode with a non-empty reveal name:
the name, initially hidden; quiz mode with an empty name: `None`; review
mode: `None` — the percent-change reveal is commented out), and the update
function (lines 268-273) makes it visible only when it is not `None`.
`none` means no reveal text is shown. -/
def reveal_text_main (quiz_mode : Bool) (quiz_reveal_name : String) : Option String :=
  if quiz_mode then
    if quiz_reveal_name ≠ "" then some quiz_reveal_name else none
  else none

/-- The reveal text shown during the end-idle phase in
src/stock_year_review.py: lines 112-141 create `final_text` (quiz mode:
the reveal name, or an empty text when no name is supplied; review mode:
the percent-change string), and the update function (lines 199-205) always
makes it visible in the end phase. -/
def reveal_text_syr (quiz_mode : Bool) (quiz_reveal_name : String) (pc : ℚ) : String :=
  if quiz_mode then quiz_reveal_name else pct_str pc

-- ── Control flow of the render driver and of run_process ──

/-- Observable stages of `create_animation`'s save phase. -/
inductive RenderEffect
  | checkEncoder
  | renderFrame (i : ℕ)
  | writeOutput
deriving DecidableEq

/-- Section 14 of `create_animation` (src/main.py lines 296-309): first the
ffmpeg availability check (line 297); when it fails the function logs and
returns at once, so no frame is rendered and no output file is produced;
otherwise all `total_frames` frames are rendered in order and the output is
written. -/
def create_animation_effects (encoderAvailable : Bool) (tf : ℕ) : List RenderEffect :=
  if encoderAvailable then
    RenderEffect.checkEncoder ::
      ((List.range tf).map RenderEffect.renderFrame ++ [RenderEffect.writeOutput])
  else [RenderEffect.checkEncoder]

/-- Outcome of one `run_process` invocation: whether it failed on series
validity, and the render effects that actually happened. -/
structure RunResult where
  failedInvalidSeries : Bool
  effects : List RenderEffect

/-- `StockReviewApp.run_process` (src/main.py lines 515-564) on the series
validity paths: with fewer than 2 parsed points it logs an error and returns
at once (lines 537-539); with duplicated timestamps the count check passes
but `create_animation` raises at line 61 — pandas
`resample('D').interpolate()` reindexes the axis and raises
`ValueError: cannot reindex on an axis with duplicate labels` — before the
encoder check and before any frame, caught by the `except` at line 592.  In
both failure cases no frame is rendered and no output file is produced;
otherwise the render runs. -/
def run_process_run (pts : List (ℕ × ℚ)) (encoderAvailable : Bool)
    (fs fm fe : ℕ) : RunResult :=
  if pts.length < 2 then ⟨true, []⟩
  else if (pts.map Prod.fst).Nodup then
    ⟨false, create_animation_effects encoderAvailable (total_frames fs fm fe)⟩
  else ⟨true, []⟩

-- ── Basic facts about `pyint` and the linspace truncation ──

theorem pyint_of_nonneg (q : ℚ) (h : 0 ≤ q) : pyint q = ⌊q⌋ := by
  simp [pyint, h]

theorem pyintNat_natCast_div (a b : ℕ) :
    pyintNat ((a : ℚ) / (b : ℚ)) = a / b := by
  have hnn : (0 : ℚ) ≤ (a : ℚ) / (b : ℚ) := by positivity
  rw [pyintNat, pyint_of_nonneg _ hnn, Int.floor_toNat]
  rw [Nat.floor_div_nat, Nat.floor_natCast]

theorem idx_main_eq_spec (N f : ℕ) (hN : 1 ≤ N) :
    idx_main N f = drawIndicesSpec N f := by
  unfold idx_main linspaceQ drawIndicesSpec
  rw [List.map_map]
  apply List.map_congr_left
  intro i hi
  have hif : i < f := List.mem_range.mp hi
  by_cases h1 : f ≤ 1
  · simp [h1, pyintNat, pyint]
  · push_neg at h1
    have hf1 : 1 ≤ f - 1 := by omega
    by_cases hlast : i = f - 1
    · have : ((N : ℚ) - 1) = ((N - 1 : ℕ) : ℚ) := by
        push_cast [hN]
        ring
      simp only [Function.comp_apply, if_neg (by omega : ¬ f ≤ 1), if_pos hlast, this]
      rw [show ((N - 1 : ℕ) : ℚ) = ((N - 1 : ℕ) : ℚ) / ((1 : ℕ) : ℚ) by norm_num]
      rw [pyintNat_natCast_div]
      subst hlast
      rw [Nat.mul_div_cancel_left _ (by omega : 0 < f - 1), Nat.div_one]
    · simp only [Function.comp_apply, if_neg (by omega : ¬ f ≤ 1), if_neg hlast]
      have hcast : (i : ℚ) * ((N : ℚ) - 1) / ((f : ℚ) - 1)
          = ((i * (N - 1) : ℕ) : ℚ) / (((f - 1 : ℕ)) : ℚ) := by
        push_cast [hN, (by omega : 1 ≤ f)]
        ring
      rw [hcast, pyintNat_natCast_div]

theorem all_indices_eq_spec (N fs fm fe : ℕ) (hN : 1 ≤ N) :
    all_indices N fs fm fe = timelineSpec N fs fm fe := by
  unfold all_indices timelineSpec
  rw [idx_main_eq_spec N fm hN]

-- ── Order and bound facts about the draw indices ──

theorem pairwise_le_replicate (n a : ℕ) :
    List.Pairwise (· ≤ ·) (List.replicate n a) := by
  induction n with
  | zero => simp
  | succ k ih =>
    rw [List.replicate_succ]
    exact List.Pairwise.cons (fun b hb => le_of_eq (List.eq_of_mem_replicate hb).symm) ih

theorem drawIndicesSpec_pairwise (N f : ℕ) :
    List.Pairwise (· ≤ ·) (drawIndicesSpec N f) := by
  unfold drawIndicesSpec
  refine List.Pairwise.map _ ?_ (List.pairwise_lt_range f)
  intro a b hab
  by_cases h1 : f ≤ 1
  · simp [h1]
  · simp only [if_neg h1]
    exact Nat.div_le_div_right (Nat.mul_le_mul_right _ hab.le)

theorem drawIndicesSpec_le (N f : ℕ) :
    ∀ x ∈ drawIndicesSpec N f, x ≤ N - 1 := by
  intro x hx
  unfold drawIndicesSpec at hx
  obtain ⟨i, hi, rfl⟩ := List.mem_map.mp hx
  by_cases h1 : f ≤ 1
  · simp [h1]
  · simp only [if_neg h1]
    have hi' : i ≤ f - 1 := by
      have := List.mem_range.mp hi
      omega
    calc i * (N - 1) / (f - 1) ≤ (f - 1) * (N - 1) / (f - 1) :=
          Nat.div_le_div_right (Nat.mul_le_mul_right _ hi')
      _ = N - 1 := Nat.mul_div_cancel_left _ (by omega)

theorem drawIndicesSpec_eq_cons (N f : ℕ) (hf : 1 ≤ f) :
    drawIndicesSpec N f = 0 :: (drawIndicesSpec N f).tail := by
  obtain ⟨k, rfl⟩ : ∃ k, f = k + 1 := ⟨f - 1, by omega⟩
  unfold drawIndicesSpec
  rw [List.range_succ_eq_map, List.map_cons, List.tail_cons]
  congr 1
  by_cases h1 : k + 1 ≤ 1
  · simp [h1]
  · simp [h1]

theorem timelineSpec_pairwise (N fs fm fe : ℕ) :
    List.Pairwise (· ≤ ·) (timelineSpec N fs fm fe) := by
  unfold timelineSpec
  rw [List.append_assoc, List.pairwise_append]
  refine ⟨pairwise_le_replicate fs 0, ?_, ?_⟩
  · rw [List.pairwise_append]
    refine ⟨drawIndicesSpec_pairwise N fm, pairwise_le_replicate fe (N - 1), ?_⟩
    intro a ha b hb
    rw [List.eq_of_mem_replicate hb]
    exact drawIndicesSpec_le N fm a ha
  · intro a ha b _
    rw [List.eq_of_mem_replicate ha]
    exact Nat.zero_le b

theorem countLead_replicate_append (n a : ℕ) (l : List ℕ) :
    countLead a (List.replicate n a ++ l) = n + countLead a l := by
  induction n with
  | zero => simp
  | succ k ih =>
    rw [List.replicate_succ, List.cons_append]
    show (if a = a then countLead a (List.replicate k a ++ l) + 1 else 0)
        = k + 1 + countLead a l
    rw [if_pos rfl, ih]
    omega

theorem firstRun_replicate_append (n a : ℕ) (t : List ℕ) :
    (firstRun (List.replicate n a ++ a :: t)).1 = a
    ∧ n + 1 ≤ (firstRun (List.replicate n a ++ a :: t)).2 := by
  have hc : countLead a (List.replicate n a ++ a :: t) = n + (countLead a t + 1) := by
    rw [countLead_replicate_append]
    show n + (if a = a then countLead a t + 1 else 0) = n + (countLead a t + 1)
    rw [if_pos rfl]
  obtain ⟨l', hl⟩ : ∃ l', List.replicate n a ++ a :: t = a :: l' := by
    cases n with
    | zero => exact ⟨t, by simp⟩
    | succ k => exact ⟨List.replicate k a ++ a :: t, by rw [List.replicate_succ, List.cons_append]⟩
  rw [hl] at hc ⊢
  exact ⟨rfl, by show n + 1 ≤ countLead a (a :: l'); omega⟩

-- ── C1 ──

/-- C1: for every dense series length N ≥ 1 and non-negative frame counts,
the frame_to_series_index array (`all_indices`, src/main.py lines 239-244)
equals the concatenation of frames_start_idle copies of 0, then frames_draw
indices evenly spaced across [0, N-1] by linear spacing with integer
truncation at each sample, then frames_end_idle copies of N-1. -/
theorem C1_timeline_is_spec_concatenation (N fs fm fe : ℕ) (hN : 1 ≤ N) :
    all_indices N fs fm fe = timelineSpec N fs fm fe :=
  all_indices_eq_spec N fs fm fe hN

/-- C1 witness at N = 5, frame counts (2, 6, 3). -/
theorem C1_timeline_is_spec_concatenation_witness :
    1 ≤ 5 ∧ all_indices 5 2 6 3 = timelineSpec 5 2 6 3 :=
  ⟨by norm_num, C1_timeline_is_spec_concatenation 5 2 6 3 (by norm_num)⟩

-- ── C2 ──

/-- C2 counterexample: at N = 2, frames (start, draw, end) = (1, 2, 1) the
array is [0, 0, 1, 1]; its first run of equal values is (0, 2), not the
claimed run length exactly frames_start_idle = 1 (and the last run is
(1, 2), not (1, 1)): the draw segment itself begins at index 0 and ends at
index N-1, extending both runs. -/
theorem C2_first_run_counterexample :
    firstRun (all_indices 2 1 2 1) = (0, 2) ∧ lastRun (all_indices 2 1 2 1) = (1, 2)
    ∧ ((0, 2) : ℕ × ℕ) ≠ (0, 1) ∧ ((1, 2) : ℕ × ℕ) ≠ (1, 1) := by
  have h := all_indices_eq_spec 2 1 2 1 (by norm_num)
  rw [h]
  refine ⟨by decide, by decide, by decide, by decide⟩

/-- C2 amended: for N ≥ 2, frames_draw ≥ 1 and any frames_start_idle,
frames_end_idle, the array is non-decreasing, its first frames_start_idle
entries equal 0 and its last frames_end_idle entries equal N-1; the first
run of equal values is the value 0 with length at least
frames_start_idle + 1 (not exactly frames_start_idle: the draw segment's
first sample is also 0). -/
theorem C2_monotone_and_idle_runs (N fs fm fe : ℕ) (hN : 2 ≤ N) (hm : 1 ≤ fm) :
    List.Pairwise (· ≤ ·) (all_indices N fs fm fe)
    ∧ (all_indices N fs fm fe).take fs = List.replicate fs 0
    ∧ (all_indices N fs fm fe).reverse.take fe = List.replicate fe (N - 1)
    ∧ (firstRun (all_indices N fs fm fe)).1 = 0
    ∧ fs + 1 ≤ (firstRun (all_indices N fs fm fe)).2 := by
  rw [all_indices_eq_spec N fs fm fe (by omega)]
  have ht := drawIndicesSpec_eq_cons N fm hm
  refine ⟨timelineSpec_pairwise N fs fm fe, ?_, ?_, ?_, ?_⟩
  · unfold timelineSpec
    rw [List.append_assoc]
    exact List.take_left' (List.length_replicate fs 0)
  · unfold timelineSpec
    rw [List.reverse_append, List.reverse_append, List.reverse_replicate]
    exact List.take_left' (List.length_replicate fe (N - 1))
  · unfold timelineSpec
    rw [ht, List.append_assoc, List.cons_append]
    exact (firstRun_replicate_append fs 0
      ((drawIndicesSpec N fm).tail ++ List.replicate fe (N - 1))).1
  · unfold timelineSpec
    rw [ht, List.append_assoc, List.cons_append]
    exact (firstRun_replicate_append fs 0
      ((drawIndicesSpec N fm).tail ++ List.replicate fe (N - 1))).2

/-- C2 witness at N = 3, frame counts (2, 3, 2). -/
theorem C2_monotone_and_idle_runs_witness :
    List.Pairwise (· ≤ ·) (all_indices 3 2 3 2)
    ∧ (all_indices 3 2 3 2).take 2 = List.replicate 2 0
    ∧ (all_indices 3 2 3 2).reverse.take 2 = List.replicate 2 (3 - 1)
    ∧ (firstRun (all_indices 3 2 3 2)).1 = 0
    ∧ 2 + 1 ≤ (firstRun (all_indices 3 2 3 2)).2 :=
  C2_monotone_and_idle_runs 3 2 3 2 (by norm_num) (by norm_num)

-- ── C3 ──

/-- C3: for non-negative durations and the fixed frame rate FPS = 30, the
total frame count (src/main.py lines 234-237) equals
⌊start_idle·30⌋ + ⌊draw·30⌋ + ⌊end_idle·30⌋, each count truncated, not
rounded. -/
theorem C3_total_frames_floor_sum (duration_sec start_idle_sec end_idle_sec : ℚ)
    (hd : 0 ≤ duration_sec) (hs : 0 ≤ start_idle_sec) (he : 0 ≤ end_idle_sec) :
    total_frames_of_secs duration_sec start_idle_sec end_idle_sec
      = ⌊start_idle_sec * 30⌋ + ⌊duration_sec * 30⌋ + ⌊end_idle_sec * 30⌋ := by
  have hFPS : ((FPS : ℕ) : ℚ) = 30 := by norm_num [FPS]
  unfold total_frames_of_secs framesFromSec
  rw [hFPS]
  rw [pyint_of_nonneg _ (mul_nonneg hs (by norm_num)),
    pyint_of_nonneg _ (mul_nonneg hd (by norm_num)),
    pyint_of_nonneg _ (mul_nonneg he (by norm_num))]

/-- C3 witness at the spec's end-to-end scenario: draw 10 s, start idle 1 s,
end idle 4 s, giving 30 + 300 + 120 frames. -/
theorem C3_total_frames_floor_sum_witness :
    total_frames_of_secs 10 1 4 = ⌊(1 : ℚ) * 30⌋ + ⌊(10 : ℚ) * 30⌋ + ⌊(4 : ℚ) * 30⌋
    ∧ total_frames_of_secs 10 1 4 = 450 := by
  constructor
  · exact C3_total_frames_floor_sum 10 1 4 (by norm_num) (by norm_num) (by norm_num)
  · unfold total_frames_of_secs framesFromSec pyint FPS
    norm_num

-- ── C10 ──

/-- C10: for N ≥ 1 and any frame counts, the index array has length exactly
total_frames and every entry (hence every per-frame lookup into it and into
the dense series, src/main.py lines 255-259) lies within [0, N-1]. -/
theorem C10_length_and_bounds (N fs fm fe : ℕ) (hN : 1 ≤ N) :
    (all_indices N fs fm fe).length = total_frames fs fm fe
    ∧ (∀ x ∈ all_indices N fs fm fe, x < N)
    ∧ ∀ i (h : i < (all_indices N fs fm fe).length),
        (all_indices N fs fm fe).get ⟨i, h⟩ < N := by
  have hlen : (all_indices N fs fm fe).length = total_frames fs fm fe := by
    unfold all_indices idx_main linspaceQ total_frames
    simp
    omega
  have hmem : ∀ x ∈ all_indices N fs fm fe, x < N := by
    rw [all_indices_eq_spec N fs fm fe hN]
    intro x hx
    unfold timelineSpec at hx
    rcases List.mem_append.mp hx with hx | hx
    · rcases List.mem_append.mp hx with hx | hx
      · rw [List.eq_of_mem_replicate hx]
        omega
      · have := drawIndicesSpec_le N fm x hx
        omega
    · rw [List.eq_of_mem_replicate hx]
      omega
  exact ⟨hlen, hmem, fun i h => hmem _ (List.get_mem _ _ h)⟩

/-- C10 witness at N = 5, frame counts (2, 6, 3). -/
theorem C10_length_and_bounds_witness :
    (all_indices 5 2 6 3).length = total_frames 2 6 3
    ∧ (∀ x ∈ all_indices 5 2 6 3, x < 5)
    ∧ ∀ i (h : i < (all_indices 5 2 6 3).length),
        (all_indices 5 2 6 3).get ⟨i, h⟩ < 5 :=
  C10_length_and_bounds 5 2 6 3 (by norm_num)

-- ── C4 ──

/-- C4 counterexample: on a dense series starting at price 0, the
stock_year_review.py variant (line 77, no zero guard) raises
ZeroDivisionError instead of yielding 0. -/
theorem C4_zero_start_counterexample :
    pct_change_syr (start_price [((0 : ℕ), (0 : ℚ)), (1, 5)])
        (end_price [((0 : ℕ), (0 : ℚ)), (1, 5)])
      = Except.error "ZeroDivisionError"
    ∧ (Except.error "ZeroDivisionError" : Except String ℚ) ≠ Except.ok 0 :=
  ⟨rfl, fun h => Except.noConfusion h⟩

/-- C4 amended: in src/main.py (line 68) the percent change equals
(end − start)/start × 100 when start ≠ 0 and is 0 when start = 0; the
src/stock_year_review.py variant (line 77) computes the same formula but has
no zero guard, so a zero start price raises ZeroDivisionError. -/
theorem C4_pct_change_policy (ds : List (ℕ × ℚ)) :
    (start_price ds ≠ 0 →
      pct_change (start_price ds) (end_price ds)
          = (end_price ds - start_price ds) / start_price ds * 100
      ∧ pct_change_syr (start_price ds) (end_price ds)
          = Except.ok ((end_price ds - start_price ds) / start_price ds * 100))
    ∧ (start_price ds = 0 →
      pct_change (start_price ds) (end_price ds) = 0
      ∧ pct_change_syr (start_price ds) (end_price ds)
          = Except.error "ZeroDivisionError") := by
  constructor
  · intro h
    unfold pct_change pct_change_syr
    rw [if_pos h, if_neg h]
    exact ⟨rfl, rfl⟩
  · intro h
    unfold pct_change pct_change_syr
    rw [if_neg (by simp [h]), if_pos h]
    exact ⟨rfl, rfl⟩

/-- C4 witness on a dense series from price 2 to price 5. -/
theorem C4_pct_change_policy_witness :
    pct_change (start_price [((0 : ℕ), (2 : ℚ)), (1, 5)])
        (end_price [((0 : ℕ), (2 : ℚ)), (1, 5)])
      = (end_price [((0 : ℕ), (2 : ℚ)), (1, 5)]
          - start_price [((0 : ℕ), (2 : ℚ)), (1, 5)])
          / start_price [((0 : ℕ), (2 : ℚ)), (1, 5)] * 100
    ∧ pct_change_syr (start_price [((0 : ℕ), (2 : ℚ)), (1, 5)])
        (end_price [((0 : ℕ), (2 : ℚ)), (1, 5)])
      = Except.ok ((end_price [((0 : ℕ), (2 : ℚ)), (1, 5)]
          - start_price [((0 : ℕ), (2 : ℚ)), (1, 5)])
          / start_price [((0 : ℕ), (2 : ℚ)), (1, 5)] * 100) :=
  (C4_pct_change_policy [((0 : ℕ), (2 : ℚ)), (1, 5)]).1 (by
    show ((2 : ℚ)) ≠ 0
    norm_num)

-- ── C5 ──

theorem append_percent_ne_empty (s : String) : s ++ "%" ≠ "" := by
  intro h
  have h2 := congrArg String.length h
  rw [String.length_append] at h2
  have e1 : ("%" : String).length = 1 := rfl
  have e2 : ("" : String).length = 0 := rfl
  omega

/-- C5 counterexample: in src/main.py Review mode shows no reveal text at all
during the end-idle phase — the percent-change reveal is commented out
(lines 181-189), so `final_text` is `None` and the update function never
shows it — refuting that Review mode always shows a non-empty reveal text. -/
theorem C5_review_reveal_counterexample :
    reveal_text_main false "AAPL" = none := rfl

/-- C5 amended: Quiz mode with an empty reveal string keeps the reveal hidden
(src/main.py: no text object) or visible but empty (stock_year_review.py);
Review mode shows the non-empty percent-change string in
stock_year_review.py, while in src/main.py the Review reveal is disabled
(commented out) and no reveal text is shown. -/
theorem C5_reveal_policy : ∀ (pc : ℚ) (r : String),
    reveal_text_main false r = none
    ∧ reveal_text_main true "" = none
    ∧ reveal_text_syr true "" pc = ""
    ∧ reveal_text_syr false r pc = pct_str pc
    ∧ pct_str pc ≠ "" := by
  intro pc r
  refine ⟨rfl, rfl, rfl, rfl, ?_⟩
  unfold pct_str
  exact append_percent_ne_empty _

-- ── C6 ──

/-- C7: for every valid price series with at least 2 points whose first and
last days span D days, the resampled dense series has exactly D + 1 entries
and the day of its i-th entry is first day + i (strictly increasing with a
fixed one-day step). -/
theorem C7_resample_daily_span (pts : List (ℕ × ℚ)) (h2 : 2 ≤ pts.length)
    (_hinc : List.Chain' (fun a b => a.1 < b.1) pts) :
    (resampleDaily pts).length = (lastDay pts - firstDay pts) + 1
    ∧ ∀ i (h : i < (resampleDaily pts).length),
        ((resampleDaily pts).get ⟨i, h⟩).1 = firstDay pts + i := by
  have hne : pts.isEmpty = false := by
    cases pts with
    | nil => simp at h2
    | cons a t => rfl
  have hres : resampleDaily pts = (List.range (lastDay pts - firstDay pts + 1)).map
      (fun i => (firstDay pts + i, interpAt pts (firstDay pts + i))) := by
    unfold resampleDaily
    rw [hne]
    simp
  rw [hres]
  constructor
  · simp
  · intro i h
    simp

/-- C7 witness on the two-point series (day 0, price 1), (day 3, price 4):
span 3 days, dense length 4. -/
theorem C7_resample_daily_span_witness :
    (resampleDaily [((0 : ℕ), (1 : ℚ)), (3, 4)]).length
        = (lastDay [((0 : ℕ), (1 : ℚ)), (3, 4)] - firstDay [((0 : ℕ), (1 : ℚ)), (3, 4)]) + 1
    ∧ ∀ i (h : i < (resampleDaily [((0 : ℕ), (1 : ℚ)), (3, 4)]).length),
        ((resampleDaily [((0 : ℕ), (1 : ℚ)), (3, 4)]).get ⟨i, h⟩).1
          = firstDay [((0 : ℕ), (1 : ℚ)), (3, 4)] + i :=
  C7_resample_daily_span _ (by norm_num) (by
    refine List.chain'_cons.mpr ⟨?_, List.chain'_singleton _⟩
    show (0 : ℕ) < 3
    norm_num)

-- ── C8 ──

/-- C8: the pipeline fails on series validity exactly when the input series
has fewer than 2 points (explicit guard, src/main.py lines 537-539) or when
any two points share a timestamp (pandas raises on the duplicate-label
reindex inside `resample('D').interpolate()` at src/main.py line 61, before
the encoder check and before any frame); in either case the error surfaces
immediately and no render effect happens, so no partial output is produced.
`InvalidSeriesError` is the spec's taxonomy label for these two paths. -/
theorem C8_invalid_series_exactly (pts : List (ℕ × ℚ)) (enc : Bool) (fs fm fe : ℕ) :
    ((run_process_run pts enc fs fm fe).failedInvalidSeries = true
      ↔ (pts.length < 2 ∨ ¬ (pts.map Prod.fst).Nodup))
    ∧ ((run_process_run pts enc fs fm fe).failedInvalidSeries = true →
        (run_process_run pts enc fs fm fe).effects = []) := by
  unfold run_process_run
  by_cases h1 : pts.length < 2
  · rw [if_pos h1]
    exact ⟨⟨fun _ => Or.inl h1, fun _ => rfl⟩, fun _ => rfl⟩
  · rw [if_neg h1]
    by_cases h2 : (pts.map Prod.fst).Nodup
    · rw [if_pos h2]
      constructor
      · constructor
        · intro h
          simp at h
        · intro h
          rcases h with h | h
          · exact absurd h h1
          · exact absurd h2 h
      · intro h
        simp at h
    · rw [if_neg h2]
      exact ⟨⟨fun _ => Or.inr h2, fun _ => rfl⟩, fun _ => rfl⟩

/-- C8 witness: on the duplicated-timestamp series (day 0, 1), (day 0, 2)
the run fails and performs no render effect. -/
theorem C8_invalid_series_exactly_witness :
    (run_process_run [((0 : ℕ), (1 : ℚ)), (0, 2)] true 1 1 1).effects = [] :=
  (C8_invalid_series_exactly [((0 : ℕ), (1 : ℚ)), (0, 2)] true 1 1 1).2 (by decide)

-- ── C9 ──

/-- C9: when the encoder is unavailable, create_animation's trace is just the
availability check — no frame is rendered and no output is written — and
when it is available the check still comes before every frame
(src/main.py lines 296-308). -/
theorem C9_encoder_checked_first (tf : ℕ) :
    create_animation_effects false tf = [RenderEffect.checkEncoder]
    ∧ (∀ i, RenderEffect.renderFrame i ∉ create_animation_effects false tf)
    ∧ RenderEffect.writeOutput ∉ create_animation_effects false tf
    ∧ (create_animation_effects true tf).head? = some RenderEffect.checkEncoder := by
  refine ⟨rfl, ?_, ?_, rfl⟩
  · intro i hi
    rw [show create_animation_effects false tf = [RenderEffect.checkEncoder] from rfl] at hi
    simp at hi
  · intro hi
    rw [show create_animation_effects false tf = [RenderEffect.checkEncoder] from rfl] at hi
    simp at hi
